import Mathlib

/-!
# envexec: validation, staging, collection and orchestration of one command

A shallow embedding of the Go package `envexec` (`interface.go`, `file.go`,
`cmd.go`).

* Go values `(x, err)` are pairs whose error component is an `Option`
  (`none` is Go's `nil` error); a pointer that may be `nil` is an `Option`.
* A Go `map` is a list of key/value pairs in the order `range` visits it.
* The collaborators (`CopyInReader`, `Environment`, `FileCollector`) and the
  operating system are records of state-passing functions over an arbitrary
  world type `σ`; every function of the package returns, next to its Go
  result, the list of calls it made (with their results) and the final world.
* `defer` is modelled by an explicit stack of deferred closes that is run when
  the function returns.
-/

set_option linter.dupNamespace false

namespace envexec

/-! ## Data model (`interface.go`, `cmd.go`) -/

/-- Values of Go's `float64` as far as `<` and `>` can tell them apart: NaN,
the two infinities, and the finite values (every finite `float64` is a
rational number). -/
inductive Float64 where
  | nan
  | negInf
  | finite (q : ℚ)
  | posInf
  deriving DecidableEq

/-- Go's `x < y` on `float64`: false as soon as one side is NaN. -/
def Float64.lt : Float64 → Float64 → Bool
  | .nan, _ => false
  | _, .nan => false
  | _, .negInf => false
  | .negInf, _ => true
  | .posInf, _ => false
  | .finite _, .posInf => true
  | .finite a, .finite b => decide (a < b)

/-- Go's `x > y` on `float64`. -/
def Float64.gt (x y : Float64) : Bool := Float64.lt y x

/-- Values of Go's `error` interface (non-nil): an error built by `fmt.Errorf`,
any other error value a collaborator may hand over (such as
`context.DeadlineExceeded`), and the two error structs of the package. -/
inductive GoError where
  | errorf (msg : String)
  | external (name : String)
  | FileError (Op : String) (Path : String) (Err : GoError)
  | CmdError (Phase : String) (Err : GoError)
  deriving DecidableEq

/-- A `*os.File`: `none` is the nil pointer, `some n` the file object number `n`. -/
abbrev File := Option Nat

/-- Go's `time.Duration`: a number of nanoseconds. -/
abbrev Duration := Int

/-- Go's `time.Second`. -/
def Second : Duration := 1000000000

/-- The package's `type ExitStatus int`. -/
abbrev ExitStatus := Int

/-- The command exited normally. -/
def StatusNormal : ExitStatus := 0

/-- The command was ended by a signal. -/
def StatusSignalled : ExitStatus := 1

/-- The command hit a runtime error. -/
def StatusREError : ExitStatus := 2

/-- The package's `type Status struct`. -/
structure Status where
  Status : ExitStatus
  Error : String
  Time : Duration
  Memory : Int
  RunTime : Duration
  ExitCode : Int
  deriving DecidableEq

/-- The package's `type Cmd struct`. -/
structure Cmd where
  Args : List String
  Env : List String
  Files : List (Int × File)
  TTY : Bool
  TimeLimit : Duration
  MemoryLimit : Int
  ProcLimit : Int
  CPURate : Float64
  CopyIn : List (String × String)
  CopyOut : List String
  deriving DecidableEq

/-- The package's `NewCmd`: the fields the composite literal does not set get
Go's zero values. -/
def NewCmd (args : List String) : Cmd :=
  { Args := args
    Env := []
    Files := []
    TTY := false
    TimeLimit := Second
    MemoryLimit := 256 <<< 20
    ProcLimit := 1
    CPURate := .finite 1
    CopyIn := []
    CopyOut := [] }

/-- The package's `ValidateCmd`. -/
def ValidateCmd (cmd : Cmd) : Option GoError :=
  if cmd.Args.length = 0 then
    some (.CmdError "validate" (.errorf "未指定命令"))
  else if cmd.TimeLimit < 0 then
    some (.CmdError "validate" (.errorf "时间限制不能为负"))
  else if cmd.MemoryLimit < 0 then
    some (.CmdError "validate" (.errorf "内存限制不能为负"))
  else if cmd.ProcLimit < 0 then
    some (.CmdError "validate" (.errorf "进程数限制不能为负"))
  else if Float64.lt cmd.CPURate (.finite 0) || Float64.gt cmd.CPURate (.finite 1) then
    some (.CmdError "validate" (.errorf "CPU使用率必须在0-1之间"))
  else
    none

/-- The specification's fifth check, `CPURate ∈ [0,1]` with both ends included; NaN and
the infinities are outside every interval. -/
def Float64.inUnitInterval : Float64 → Bool
  | .finite q => decide (0 ≤ q ∧ q ≤ 1)
  | _ => false

/-- The validation the specification describes: the five checks in order, and
the cause that belongs to the first one violated. -/
def firstViolation (cmd : Cmd) : Option GoError :=
  if cmd.Args = [] then some (.errorf "未指定命令")
  else if ¬ 0 ≤ cmd.TimeLimit then some (.errorf "时间限制不能为负")
  else if ¬ 0 ≤ cmd.MemoryLimit then some (.errorf "内存限制不能为负")
  else if ¬ 0 ≤ cmd.ProcLimit then some (.errorf "进程数限制不能为负")
  else if ¬ cmd.CPURate.inUnitInterval then some (.errorf "CPU使用率必须在0-1之间")
  else none

/-! ## Collaborators, operating system and call log (`file.go`, `interface.go`) -/

/-- The flags `os.OpenFile` is given by this package. -/
inductive OpenFlag where
  | O_WRONLY
  | O_CREATE
  | O_TRUNC
  deriving DecidableEq

/-- One call that leaves the package, with the arguments it was given and the
results it returned. -/
inductive Call where
  | OpenFile (path : String) (f : File) (err : Option GoError)
  | MkdirAll (path : String) (perm : Nat) (err : Option GoError)
  | OsOpenFile (name : String) (flag : List OpenFlag) (perm : Nat) (f : File)
      (err : Option GoError)
  | Copy (dst : File) (src : File) (err : Option GoError)
  | Sync (f : File) (err : Option GoError)
  | Close (f : File)
  | Run (cmd : Cmd) (status : Option Status) (err : Option GoError)
  | CollectFiles (paths : List String) (files : List (String × File))
      (err : Option GoError)
  deriving DecidableEq

/-- The package's `type CopyInReader interface`. -/
structure CopyInReader (σ Ctx : Type) where
  OpenFile : Ctx → String → σ → (File × Option GoError) × σ

/-- The package's `type Environment interface`; only `Run` is used by the package. -/
structure Environment (σ Ctx : Type) where
  Run : Ctx → Cmd → σ → (Option Status × Option GoError) × σ

/-- The package's `type FileCollector interface`; only `CollectFiles` is used by the package. -/
structure FileCollector (σ Ctx : Type) where
  CollectFiles : Ctx → List String → σ → (List (String × File) × Option GoError) × σ

/-- The functions of Go's standard library the package calls: `filepath.Dir`,
`os.MkdirAll`, `os.OpenFile`, `io.Copy`, `(*os.File).Sync`, `(*os.File).Close`. -/
structure OS (σ : Type) where
  Dir : String → String
  MkdirAll : String → Nat → σ → Option GoError × σ
  OpenFile : String → List OpenFlag → Nat → σ → (File × Option GoError) × σ
  Copy : File → File → σ → Option GoError × σ
  Sync : File → σ → Option GoError × σ
  Close : File → σ → σ

/-- What a function of the package yields: its Go result, the calls it made in
order, and the world it leaves. -/
structure Outcome (σ α : Type) where
  val : α
  calls : List Call
  world : σ

variable {σ Ctx : Type}

/-- The package's `CopyFile`: `io.Copy(dst, src)`, then `dst.Sync()`. -/
def CopyFile (os : OS σ) (dst src : File) (w : σ) : Outcome σ (Option GoError) :=
  let c := os.Copy dst src w
  match c.1 with
  | some err => ⟨some err, [Call.Copy dst src (some err)], c.2⟩
  | none =>
    let s := os.Sync dst c.2
    ⟨s.1, [Call.Copy dst src none, Call.Sync dst s.1], s.2⟩

/-- The package's `EnsureFilePath`: `os.MkdirAll(filepath.Dir(path), 0755)`. -/
def EnsureFilePath (os : OS σ) (path : String) (w : σ) : Outcome σ (Option GoError) :=
  let r := os.MkdirAll (os.Dir path) 0o755 w
  ⟨r.1, [Call.MkdirAll (os.Dir path) 0o755 r.1], r.2⟩

/-- Runs a stack of deferred `Close` calls, the most recently deferred first. -/
def runDeferred (os : OS σ) : List File → σ → List Call × σ
  | [], w => ([], w)
  | f :: rest, w =>
    let r := runDeferred os rest (os.Close f w)
    (Call.Close f :: r.1, r.2)

/-- The state of `PrepareFiles` when its loop is left: the error to return, the
stack of deferred closes (last deferred first), the calls made, the world. -/
structure LoopState (σ : Type) where
  err : Option GoError
  deferred : List File
  calls : List Call
  world : σ

/-- The flags and the permission bits `PrepareFiles` opens a destination with:
`os.O_WRONLY|os.O_CREATE|os.O_TRUNC` and `0644`. -/
def dstFlag : List OpenFlag := [.O_WRONLY, .O_CREATE, .O_TRUNC]

/-- The `for dst, src := range cmd.CopyIn` loop of `PrepareFiles`, entered with
the closes deferred so far; a `return` inside the body leaves the loop. -/
def PrepareFiles.loop (os : OS σ) (ctx : Ctx) (copyIn : CopyInReader σ Ctx) :
    List (String × String) → List File → σ → LoopState σ
  | [], d, w => ⟨none, d, [], w⟩
  | (dst, src) :: rest, d, w =>
    let o := copyIn.OpenFile ctx src w
    let srcFile := o.1.1
    match o.1.2 with
    | some err =>
      ⟨some (.FileError "open" src err), d, [Call.OpenFile src srcFile (some err)], o.2⟩
    | none =>
      let m := EnsureFilePath os dst o.2
      match m.val with
      | some err =>
        ⟨some (.FileError "mkdir" dst err), srcFile :: d,
          Call.OpenFile src srcFile none :: m.calls, m.world⟩
      | none =>
        let t := os.OpenFile dst dstFlag 0o644 m.world
        let dstFile := t.1.1
        match t.1.2 with
        | some err =>
          ⟨some (.FileError "create" dst err), srcFile :: d,
            Call.OpenFile src srcFile none :: m.calls ++
              [Call.OsOpenFile dst dstFlag 0o644 dstFile (some err)],
            t.2⟩
        | none =>
          let c := CopyFile os dstFile srcFile t.2
          match c.val with
          | some err =>
            ⟨some (.FileError "copy" dst err), dstFile :: srcFile :: d,
              Call.OpenFile src srcFile none :: m.calls ++
                Call.OsOpenFile dst dstFlag 0o644 dstFile none :: c.calls,
              c.world⟩
          | none =>
            let r := PrepareFiles.loop os ctx copyIn rest (dstFile :: srcFile :: d) c.world
            ⟨r.err, r.deferred,
              Call.OpenFile src srcFile none :: m.calls ++
                Call.OsOpenFile dst dstFlag 0o644 dstFile none :: c.calls ++ r.calls,
              r.world⟩

/-- The package's `PrepareFiles`: the loop, then the deferred closes on every way out. -/
def PrepareFiles (os : OS σ) (ctx : Ctx) (cmd : Cmd) (copyIn : CopyInReader σ Ctx)
    (w : σ) : Outcome σ (Option GoError) :=
  let r := PrepareFiles.loop os ctx copyIn cmd.CopyIn [] w
  let d := runDeferred os r.deferred r.world
  ⟨r.err, r.calls ++ d.1, d.2⟩

/-- The package's `CollectFiles`. -/
def CollectFiles (ctx : Ctx) (copyOut : List String) (collector : FileCollector σ Ctx)
    (w : σ) : Outcome σ (List (String × File) × Option GoError) :=
  if copyOut.length = 0 then
    ⟨([], none), [], w⟩
  else
    let r := collector.CollectFiles ctx copyOut w
    ⟨r.1, [Call.CollectFiles copyOut r.1.1 r.1.2], r.2⟩

/-- The closure deferred by `RunCmd`:
`for _, f := range files { if f != nil { f.Close() } }`. -/
def closeCollected (os : OS σ) : List (String × File) → σ → List Call × σ
  | [], w => ([], w)
  | (_, none) :: rest, w => closeCollected os rest w
  | (_, some n) :: rest, w =>
    let r := closeCollected os rest (os.Close (some n) w)
    (Call.Close (some n) :: r.1, r.2)

/-- The package's `RunCmd`. -/
def RunCmd (os : OS σ) (ctx : Ctx) (env : Environment σ Ctx) (cmd : Cmd)
    (copyIn : CopyInReader σ Ctx) (copyOut : FileCollector σ Ctx) (w : σ) :
    Outcome σ (Option Status × Option GoError) :=
  match ValidateCmd cmd with
  | some err => ⟨(none, some err), [], w⟩
  | none =>
    let p := PrepareFiles os ctx cmd copyIn w
    match p.val with
    | some err => ⟨(none, some (.CmdError "prepare" err)), p.calls, p.world⟩
    | none =>
      let r := env.Run ctx cmd p.world
      let status := r.1.1
      match r.1.2 with
      | some err =>
        ⟨(none, some (.CmdError "run" err)),
          p.calls ++ [Call.Run cmd status (some err)], r.2⟩
      | none =>
        if cmd.CopyOut.length > 0 then
          let c := CollectFiles ctx cmd.CopyOut copyOut r.2
          let files := c.val.1
          match c.val.2 with
          | some err =>
            ⟨(none, some (.CmdError "collect" err)),
              p.calls ++ Call.Run cmd status none :: c.calls, c.world⟩
          | none =>
            let d := closeCollected os files c.world
            ⟨(status, none), p.calls ++ Call.Run cmd status none :: c.calls ++ d.1, d.2⟩
        else
          ⟨(status, none), p.calls ++ [Call.Run cmd status none], r.2⟩

/-! ## Reading the call log -/

/-- The error a logged call returned; `Close` results are discarded by the code. -/
def Call.err : Call → Option GoError
  | .OpenFile _ _ e => e
  | .MkdirAll _ _ e => e
  | .OsOpenFile _ _ _ _ e => e
  | .Copy _ _ e => e
  | .Sync _ e => e
  | .Close _ => none
  | .Run _ _ e => e
  | .CollectFiles _ _ e => e

/-- Whether the call is a `Close`. -/
def Call.isClose : Call → Bool
  | .Close _ => true
  | _ => false

/-- Whether the call is the backend's `Run`. -/
def Call.isRun : Call → Bool
  | .Run _ _ _ => true
  | _ => false

/-- Whether the call is the collector's `CollectFiles`. -/
def Call.isCollect : Call → Bool
  | .CollectFiles _ _ _ => true
  | _ => false

/-- The file pointers the logged calls opened: the results of the successful
`OpenFile` calls of the reader and of `os.OpenFile`, in order. -/
def opened : List Call → List File
  | [] => []
  | .OpenFile _ f none :: l => f :: opened l
  | .OsOpenFile _ _ _ f none :: l => f :: opened l
  | _ :: l => opened l

/-- The calls of one copy-in entry `(dst, src)` whose four sub-steps all
succeed: open the source, make the parent directory, create/truncate the
destination, copy and sync. -/
def entryCalls (dir : String → String) (e : String × String) (srcFile dstFile : File) :
    List Call :=
  [ .OpenFile e.2 srcFile none,
    .MkdirAll (dir e.1) 0o755 none,
    .OsOpenFile e.1 dstFlag 0o644 dstFile none,
    .Copy dstFile srcFile none,
    .Sync dstFile none ]

/-- The calls of a run of entries that all succeed, given the source and
destination pointers each entry obtained. -/
def doneCalls (dir : String → String) :
    List (String × String) → List (File × File) → List Call
  | e :: rest, h :: hs => entryCalls dir e h.1 h.2 ++ doneCalls dir rest hs
  | _, _ => []

/-- The place an entry can fail at: its four sub-steps, the last one being the
two calls `io.Copy` and `Sync`. -/
inductive SubStep where
  | openSource
  | makeDir
  | createDest
  | copyBytes
  | syncDest
  deriving DecidableEq

/-- The calls of one copy-in entry `(dst, src)` that fails at the given place
with the given cause, and the error the specification asks for: a `FileError`
with the kind of the failing sub-step, the offending path (the source for
`open`, the destination otherwise) and the cause. -/
def failedEntry (dir : String → String) (e : String × String) (srcFile dstFile : File)
    (cause : GoError) : SubStep → List Call × GoError
  | .openSource =>
    ([.OpenFile e.2 srcFile (some cause)], .FileError "open" e.2 cause)
  | .makeDir =>
    ([.OpenFile e.2 srcFile none, .MkdirAll (dir e.1) 0o755 (some cause)],
      .FileError "mkdir" e.1 cause)
  | .createDest =>
    ([.OpenFile e.2 srcFile none, .MkdirAll (dir e.1) 0o755 none,
        .OsOpenFile e.1 dstFlag 0o644 dstFile (some cause)],
      .FileError "create" e.1 cause)
  | .copyBytes =>
    ([.OpenFile e.2 srcFile none, .MkdirAll (dir e.1) 0o755 none,
        .OsOpenFile e.1 dstFlag 0o644 dstFile none, .Copy dstFile srcFile (some cause)],
      .FileError "copy" e.1 cause)
  | .syncDest =>
    ([.OpenFile e.2 srcFile none, .MkdirAll (dir e.1) 0o755 none,
        .OsOpenFile e.1 dstFlag 0o644 dstFile none, .Copy dstFile srcFile none,
        .Sync dstFile (some cause)],
      .FileError "copy" e.1 cause)

/-- The reading of the log the specification gives for scoped handles:
whenever the reader is asked to open a source, no file opened before is still
open, and none is open at the end. The number is the count of open files. -/
def releasedPerEntry : Nat → List Call → Bool
  | n, [] => n == 0
  | n, .OpenFile _ _ none :: l => n == 0 && releasedPerEntry (n + 1) l
  | n, .OpenFile _ _ (some _) :: l => n == 0 && releasedPerEntry n l
  | n, .OsOpenFile _ _ _ _ none :: l => releasedPerEntry (n + 1) l
  | n, .Close _ :: l => releasedPerEntry (n - 1) l
  | n, _ :: l => releasedPerEntry n l

/-- Makes one logged call for real in the world `w`: the callee named by the
call is run on the logged arguments. The answer is the world the callee
leaves, provided the callee returns exactly the logged results; `none` when
the log does not tell what the callee returns. -/
def Call.replay (os : OS σ) (ctx : Ctx) (env : Environment σ Ctx)
    (copyIn : CopyInReader σ Ctx) (copyOut : FileCollector σ Ctx) : Call → σ → Option σ
  | .OpenFile path f err, w =>
    if (copyIn.OpenFile ctx path w).1.1 = f ∧ (copyIn.OpenFile ctx path w).1.2 = err then
      some (copyIn.OpenFile ctx path w).2
    else none
  | .MkdirAll path perm err, w =>
    if (os.MkdirAll path perm w).1 = err then some (os.MkdirAll path perm w).2 else none
  | .OsOpenFile name flag perm f err, w =>
    if (os.OpenFile name flag perm w).1.1 = f ∧ (os.OpenFile name flag perm w).1.2 = err then
      some (os.OpenFile name flag perm w).2
    else none
  | .Copy dst src err, w =>
    if (os.Copy dst src w).1 = err then some (os.Copy dst src w).2 else none
  | .Sync f err, w =>
    if (os.Sync f w).1 = err then some (os.Sync f w).2 else none
  | .Close f, w => some (os.Close f w)
  | .Run cmd status err, w =>
    if (env.Run ctx cmd w).1.1 = status ∧ (env.Run ctx cmd w).1.2 = err then
      some (env.Run ctx cmd w).2
    else none
  | .CollectFiles paths files err, w =>
    if (copyOut.CollectFiles ctx paths w).1.1 = files ∧
        (copyOut.CollectFiles ctx paths w).1.2 = err then
      some (copyOut.CollectFiles ctx paths w).2
    else none

/-- Makes the logged calls for real, one after the other, from the world `w`:
the world after the last call, provided every call returns what the log says. -/
def replay (os : OS σ) (ctx : Ctx) (env : Environment σ Ctx)
    (copyIn : CopyInReader σ Ctx) (copyOut : FileCollector σ Ctx) :
    List Call → σ → Option σ
  | [], w => some w
  | c :: l, w =>
    match c.replay os ctx env copyIn copyOut w with
    | some w1 => replay os ctx env copyIn copyOut l w1
    | none => none

/-- The world after `f.Close()` on each of the files, in order. -/
def closeAll (os : OS σ) (fs : List File) (w : σ) : σ :=
  fs.foldl (fun w1 f => os.Close f w1) w

/-- The non-nil files of a collected map, in the order `range` visits it. -/
def nonNilFiles (m : List (String × File)) : List File :=
  (m.map Prod.snd).filter (fun f => f.isSome)

/-! ## An in-memory operating system

A concrete world for the standard-library calls: regular files addressed by
their path string (directories, links and permissions are not modelled, so
`os.MkdirAll` always succeeds), and the table of file objects handed out. -/

/-- The state of one `*os.File`: the path it was opened on, its position,
whether it was opened for writing, whether it has been closed. -/
structure FileObj where
  path : String
  offset : Nat
  writable : Bool
  closed : Bool
  deriving DecidableEq

/-- The in-memory world: the bytes of every existing file, the file objects
handed out so far (`some n` points at `objs n`), and the number of the next
file object. -/
structure MemFS where
  files : String → Option (List Nat)
  objs : Nat → Option FileObj
  next : Nat

/-- The live file object a pointer refers to, if any. -/
def MemFS.obj (w : MemFS) : File → Option FileObj
  | none => none
  | some n =>
    match w.objs n with
    | some o => if o.closed then none else some o
    | none => none

/-- Go's `os.Open(path)`: a fresh read-only file object at position 0. -/
def MemFS.open (path : String) (w : MemFS) : (File × Option GoError) × MemFS :=
  match w.files path with
  | none => ((none, some (.external "file does not exist")), w)
  | some _ =>
    ((some w.next, none),
      { w with objs := Function.update w.objs w.next (some ⟨path, 0, false, false⟩),
               next := w.next + 1 })

/-- Go's `os.OpenFile(name, flag, perm)`: creates the file when it is missing and
`O_CREATE` is given, empties it when `O_TRUNC` is given. -/
def MemFS.openFile (name : String) (flag : List OpenFlag) (_perm : Nat) (w : MemFS) :
    (File × Option GoError) × MemFS :=
  match w.files name with
  | none =>
    if OpenFlag.O_CREATE ∈ flag then
      ((some w.next, none),
        { files := Function.update w.files name (some []),
          objs := Function.update w.objs w.next
            (some ⟨name, 0, decide (OpenFlag.O_WRONLY ∈ flag), false⟩),
          next := w.next + 1 })
    else ((none, some (.external "file does not exist")), w)
  | some old =>
    ((some w.next, none),
      { files := Function.update w.files name
          (some (if OpenFlag.O_TRUNC ∈ flag then [] else old)),
        objs := Function.update w.objs w.next
          (some ⟨name, 0, decide (OpenFlag.O_WRONLY ∈ flag), false⟩),
        next := w.next + 1 })

/-- Go's `io.Copy(dst, src)`: the bytes of the source from its position to its end
are written at the position of the destination, and both positions advance. -/
def MemFS.copy (dst src : File) (w : MemFS) : Option GoError × MemFS :=
  match w.obj dst, w.obj src, dst, src with
  | some d, some s, some nd, some ns =>
    if d.writable && !s.writable then
      let data := ((w.files s.path).getD []).drop s.offset
      let old := (w.files d.path).getD []
      let new := old.take d.offset ++ data ++ old.drop (d.offset + data.length)
      (none,
        { w with
          files := Function.update w.files d.path (some new),
          objs := Function.update
            (Function.update w.objs ns (some { s with offset := s.offset + data.length })) nd
            (some { d with offset := d.offset + data.length }) })
    else (some (.external "bad file descriptor"), w)
  | _, _, _, _ => (some (.external "invalid argument"), w)

/-- Go's `f.Sync()`. -/
def MemFS.sync (f : File) (w : MemFS) : Option GoError × MemFS :=
  match w.obj f with
  | some _ => (none, w)
  | none => (some (.external "invalid argument"), w)

/-- Go's `f.Close()`; on the nil pointer or a closed file nothing happens. -/
def MemFS.close (f : File) (w : MemFS) : MemFS :=
  match w.obj f, f with
  | some o, some n => { w with objs := Function.update w.objs n (some { o with closed := true }) }
  | _, _ => w

/-- The characters before the last `/` of a path, if it has one. -/
def MemFS.dirChars : List Char → Option (List Char)
  | [] => none
  | c :: cs =>
    match MemFS.dirChars cs with
    | some d => some (c :: d)
    | none => if c = '/' then some [] else none

/-- Go's `filepath.Dir` for a path without `.`, `..` or repeated separators: what
stands before the last `/`, or `.` when there is none. -/
def MemFS.dir (path : String) : String :=
  match MemFS.dirChars path.data with
  | none => "."
  | some [] => "/"
  | some d => String.mk d

/-- The in-memory operating system. -/
def memOS : OS MemFS where
  Dir := MemFS.dir
  MkdirAll := fun _ _ w => (none, w)
  OpenFile := MemFS.openFile
  Copy := MemFS.copy
  Sync := MemFS.sync
  Close := MemFS.close

/-- A source reader that opens the path on the local file system. -/
def localReader : CopyInReader MemFS Unit where
  OpenFile := fun _ path w => MemFS.open path w

/-- The file system with the given files and no file object. -/
def MemFS.ofList (l : List (String × List Nat)) : MemFS where
  files := fun p => (l.find? (fun e => e.1 == p)).map Prod.snd
  objs := fun _ => none
  next := 0

/-! ## The collaborators and inputs of the package's tests -/

/-- The file system of `TestRunCmd`: one temporary file, already open as file
object 0. -/
def testFS : MemFS where
  files := fun p => if p = "/tmp/test" then some [104, 105] else none
  objs := fun n => if n = 0 then some ⟨"/tmp/test", 0, false, false⟩ else none
  next := 1

/-- The test's `MockFileReader` returning the temporary file for every path. -/
def mockReader : CopyInReader MemFS Unit where
  OpenFile := fun _ _ w => ((some 0, none), w)

/-- The test's `MockEnvironment` with a `RunFunc` that returns the given pair. -/
def mockEnv (status : Option Status) (err : Option GoError) : Environment MemFS Unit where
  Run := fun _ _ w => ((status, err), w)

/-- The test's `MockFileCollector` with a `CollectFilesFunc` that returns the given pair. -/
def mockCollector (files : List (String × File)) (err : Option GoError) :
    FileCollector MemFS Unit where
  CollectFiles := fun _ _ w => ((files, err), w)

/-- Go's `context.DeadlineExceeded`. -/
def DeadlineExceeded : GoError := .external "context deadline exceeded"

/-- The status the backend of the first test case returns. -/
def okStatus : Status :=
  { Status := StatusNormal, Error := "", Time := 100000000, Memory := 1024,
    RunTime := 150000000, ExitCode := 0 }

/-- The descriptor of the first test case of `TestRunCmd`. -/
def echoCmd : Cmd :=
  { Args := ["/bin/echo", "hello"], Env := [], Files := [], TTY := false,
    TimeLimit := Second, MemoryLimit := 64 <<< 20, ProcLimit := 0, CPURate := .finite 0,
    CopyIn := [("input.txt", "/tmp/test")], CopyOut := ["output.txt"] }

/-- The descriptor of the fourth test case. -/
def sleepCmd : Cmd :=
  { Args := ["/bin/sleep", "10"], Env := [], Files := [], TTY := false,
    TimeLimit := Second, MemoryLimit := 64 <<< 20, ProcLimit := 0, CPURate := .finite 0,
    CopyIn := [], CopyOut := [] }

/-- A descriptor with two copy-in entries, `x ← a` then `y ← b`. -/
def twoEntries : Cmd := { NewCmd ["/bin/true"] with CopyIn := [("x", "a"), ("y", "b")] }

/-- A file system holding the two sources `a` and `b`. -/
def twoSources : MemFS := MemFS.ofList [("a", [1, 2]), ("b", [3])]

/-- A descriptor with two copy-in entries, `x ← a` then `y ← missing`, the
second source not existing in `twoSources`. -/
def secondMissing : Cmd :=
  { NewCmd ["/bin/true"] with CopyIn := [("x", "a"), ("y", "missing")] }

/-- A copy-in table in which the source `b` of one entry is the destination
of another, in the order `c ← b`, `b ← a`. -/
def chainTable : List (String × String) := [("c", "b"), ("b", "a")]

/-- A file system holding `a` and `b` with different bytes. -/
def chainFS : MemFS := MemFS.ofList [("a", [1]), ("b", [2])]

/-- What staging one entry `(dst, src)` does to the contents of the files: the
destination gets the bytes of the source. -/
def assign (f : String → Option (List Nat)) (e : String × String) :
    String → Option (List Nat) :=
  Function.update f e.1 (f e.2)

/-- Two successive runs of staging: the first over `tbl` from `w`, the second
over `tbl2` (the same table, ranged over a second time) from what the first
leaves. -/
def stageTwice (tbl tbl2 : List (String × String)) (w : MemFS) :
    Outcome MemFS (Option GoError) × Outcome MemFS (Option GoError) :=
  let r1 := PrepareFiles memOS () { NewCmd [] with CopyIn := tbl } localReader w
  (r1, PrepareFiles memOS () { NewCmd [] with CopyIn := tbl2 } localReader r1.world)

/-! ## Validation and default construction -/

theorem Float64.inUnitInterval_iff (x : Float64) (h : x ≠ .nan) :
    x.inUnitInterval = !(Float64.lt x (.finite 0) || Float64.gt x (.finite 1)) := by
  cases x with
  | nan => exact absurd rfl h
  | negInf => rfl
  | posInf => rfl
  | finite q =>
    simp only [Float64.inUnitInterval, Float64.lt, Float64.gt]
    by_cases h0 : q < 0 <;> by_cases h1 : 1 < q <;> simp [h0, h1, not_lt.mp, le_of_lt]

/-- Away from NaN the validator is the specified one: the five checks in order,
short-circuiting, each failure tagged `validate` with its own cause. -/
theorem ValidateCmd_eq_firstViolation (cmd : Cmd) (h : cmd.CPURate ≠ .nan) :
    ValidateCmd cmd = (firstViolation cmd).map (GoError.CmdError "validate") := by
  unfold ValidateCmd firstViolation
  rw [Float64.inUnitInterval_iff _ h]
  by_cases h1 : cmd.Args = []
  · simp [h1]
  · have h1' : cmd.Args.length ≠ 0 := by simpa using h1
    simp only [h1, h1', if_false, not_le]
    split_ifs <;> simp_all

/-- C1: a descriptor whose `CPURate` is NaN violates the fifth check (NaN is not
in `[0,1]`), so the specified validation fails with the CPU-rate cause, yet
`ValidateCmd` returns no error. -/
theorem ValidateCmd_nan_accepted :
    ValidateCmd { NewCmd ["/bin/echo"] with CPURate := .nan } = none ∧
      firstViolation { NewCmd ["/bin/echo"] with CPURate := .nan } =
        some (.errorf "CPU使用率必须在0-1之间") := by
  constructor <;> decide

/-- C8: `NewCmd args` keeps `args` and fills the defaults: one second (10^9 ns),
256 MiB, one process, CPU rate 1.0, nothing to copy in or out, no environment
variables, no file-descriptor entries, TTY off. -/
theorem NewCmd_defaults (args : List String) :
    (NewCmd args).Args = args ∧
      (NewCmd args).TimeLimit = Second ∧ Second = 1000000000 ∧
      (NewCmd args).MemoryLimit = 268435456 ∧ (268435456 : Int) = 256 * 1024 * 1024 ∧
      (NewCmd args).ProcLimit = 1 ∧
      (NewCmd args).CPURate = .finite 1 ∧
      (NewCmd args).CopyIn = [] ∧
      (NewCmd args).CopyOut = [] ∧
      (NewCmd args).Env = [] ∧
      (NewCmd args).Files = [] ∧
      (NewCmd args).TTY = false := by
  refine ⟨rfl, rfl, rfl, ?_, by decide, rfl, rfl, rfl, rfl, rfl, rfl, rfl⟩
  show (256 <<< 20 : Int) = 268435456
  decide

/-- C9, as stated, fails: the default descriptor built from the empty argument
vector is rejected by the first check. -/
theorem ValidateCmd_NewCmd_nil :
    ValidateCmd (NewCmd []) = some (.CmdError "validate" (.errorf "未指定命令")) := by
  decide

/-- C9, amended: for every non-empty argument vector the default descriptor
passes validation. -/
theorem ValidateCmd_NewCmd (args : List String) (h : args ≠ []) :
    ValidateCmd (NewCmd args) = none := by
  have h1 : args.length ≠ 0 := by simpa using h
  simp [ValidateCmd, NewCmd, h1, Second, Float64.lt, Float64.gt]

theorem ValidateCmd_NewCmd_witness :
    ["/bin/echo", "hello"] ≠ [] ∧ ValidateCmd (NewCmd ["/bin/echo", "hello"]) = none :=
  ⟨by decide, ValidateCmd_NewCmd ["/bin/echo", "hello"] (by decide)⟩

/-! ## Staging: the shape of the call log -/

section Staging

variable {σ Ctx : Type}

theorem opened_append (l₁ l₂ : List Call) : opened (l₁ ++ l₂) = opened l₁ ++ opened l₂ := by
  induction l₁ with
  | nil => rfl
  | cons c l ih =>
    cases c with
    | OpenFile p f e => cases e <;> simp [opened, ih]
    | OsOpenFile n fl pm f e => cases e <;> simp [opened, ih]
    | _ => simp [opened, ih]

theorem CopyFile_cases (os : OS σ) (dst src : File) (w : σ) :
    ((CopyFile os dst src w).val = none ∧
        (CopyFile os dst src w).calls = [Call.Copy dst src none, Call.Sync dst none]) ∨
      (∃ c, (CopyFile os dst src w).val = some c ∧
        ((CopyFile os dst src w).calls = [Call.Copy dst src (some c)] ∨
          (CopyFile os dst src w).calls = [Call.Copy dst src none, Call.Sync dst (some c)])) := by
  cases h : (os.Copy dst src w).1 with
  | some c => exact Or.inr ⟨c, by simp [CopyFile, h]⟩
  | none =>
    cases h2 : (os.Sync dst (os.Copy dst src w).2).1 with
    | none => exact Or.inl (by simp [CopyFile, h, h2])
    | some c => exact Or.inr ⟨c, by simp [CopyFile, h, h2]⟩

theorem loop_spec (os : OS σ) (ctx : Ctx) (copyIn : CopyInReader σ Ctx) :
    ∀ (tbl : List (String × String)) (d : List File) (w : σ),
      (∀ c ∈ (PrepareFiles.loop os ctx copyIn tbl d w).calls, c.isClose = false) ∧
      (PrepareFiles.loop os ctx copyIn tbl d w).deferred =
        (opened (PrepareFiles.loop os ctx copyIn tbl d w).calls).reverse ++ d ∧
      (((PrepareFiles.loop os ctx copyIn tbl d w).err = none ∧
          ∃ hs : List (File × File), hs.length = tbl.length ∧
            (PrepareFiles.loop os ctx copyIn tbl d w).calls = doneCalls os.Dir tbl hs) ∨
        (∃ done cur rest, ∃ hs : List (File × File), ∃ sf df cause step,
          tbl = done ++ cur :: rest ∧ hs.length = done.length ∧
          (PrepareFiles.loop os ctx copyIn tbl d w).calls =
            doneCalls os.Dir done hs ++ (failedEntry os.Dir cur sf df cause step).1 ∧
          (PrepareFiles.loop os ctx copyIn tbl d w).err =
            some (failedEntry os.Dir cur sf df cause step).2)) := by
  intro tbl
  induction tbl with
  | nil =>
    intro d w
    refine ⟨by simp [PrepareFiles.loop], by simp [PrepareFiles.loop, opened], Or.inl ⟨rfl, [], rfl, rfl⟩⟩
  | cons e rest ih =>
    intro d w
    obtain ⟨dst, src⟩ := e
    simp only [PrepareFiles.loop]
    split
    · rename_i err herr
      refine ⟨by simp [Call.isClose], by simp [opened], Or.inr ⟨[], (dst, src), rest, [],
        (copyIn.OpenFile ctx src w).1.1, none, err, .openSource, rfl, rfl, ?_, ?_⟩⟩ <;>
        simp [doneCalls, failedEntry]
    · rename_i hopen
      split
      · rename_i err herr
        refine ⟨by simp [Call.isClose, EnsureFilePath], by simp [opened, EnsureFilePath],
          Or.inr ⟨[], (dst, src), rest, [],
          (copyIn.OpenFile ctx src w).1.1, none, err, .makeDir, rfl, rfl, ?_, ?_⟩⟩ <;>
          simp [doneCalls, failedEntry, EnsureFilePath] at herr ⊢
        exact herr
      · rename_i hmk
        have hmc : (EnsureFilePath os dst (copyIn.OpenFile ctx src w).2).calls =
            [Call.MkdirAll (os.Dir dst) 0o755 none] := by
          simp only [EnsureFilePath] at hmk ⊢
          rw [hmk]
        split
        · rename_i err herr
          refine ⟨by simp [Call.isClose, hmc], by simp [opened, hmc, opened_append],
            Or.inr ⟨[], (dst, src), rest, [], (copyIn.OpenFile ctx src w).1.1,
              (os.OpenFile dst dstFlag 0o644
                (EnsureFilePath os dst (copyIn.OpenFile ctx src w).2).world).1.1,
              err, .createDest, rfl, rfl, ?_, ?_⟩⟩ <;>
            simp [doneCalls, failedEntry, hmc]
        · rename_i hcr
          rcases CopyFile_cases os
            (os.OpenFile dst dstFlag 0o644
              (EnsureFilePath os dst (copyIn.OpenFile ctx src w).2).world).1.1
            (copyIn.OpenFile ctx src w).1.1
            (os.OpenFile dst dstFlag 0o644
              (EnsureFilePath os dst (copyIn.OpenFile ctx src w).2).world).2 with
            ⟨hv, hc⟩ | ⟨cause, hv, hc | hc⟩
          · rw [hv]
            simp only [hmc, hc]
            obtain ⟨ih1, ih2, ih3⟩ := ih
              ((os.OpenFile dst dstFlag 0o644
                  (EnsureFilePath os dst (copyIn.OpenFile ctx src w).2).world).1.1 ::
                (copyIn.OpenFile ctx src w).1.1 :: d)
              (CopyFile os
                (os.OpenFile dst dstFlag 0o644
                  (EnsureFilePath os dst (copyIn.OpenFile ctx src w).2).world).1.1
                (copyIn.OpenFile ctx src w).1.1
                (os.OpenFile dst dstFlag 0o644
                  (EnsureFilePath os dst (copyIn.OpenFile ctx src w).2).world).2).world
            refine ⟨?_, ?_, ?_⟩
            · intro c hcm
              simp only [List.mem_cons, List.mem_append, List.cons_append, List.nil_append,
                List.mem_singleton] at hcm
              rcases hcm with h | h | h | h | h | h
              · rw [h]; rfl
              · rw [h]; rfl
              · rw [h]; rfl
              · rw [h]; rfl
              · rw [h]; rfl
              · exact ih1 c h
            · rw [ih2]
              simp [opened, opened_append]
            · rcases ih3 with ⟨he, hs, hl, hcs⟩ | ⟨done, cur, rest2, hs, sf, df, cause, step, ht,
                hl, hcs, he⟩
              · refine Or.inl ⟨he, ((copyIn.OpenFile ctx src w).1.1,
                  (os.OpenFile dst dstFlag 0o644
                    (EnsureFilePath os dst (copyIn.OpenFile ctx src w).2).world).1.1) :: hs,
                  by simp [hl], ?_⟩
                rw [hcs]
                simp [doneCalls, entryCalls]
              · refine Or.inr ⟨(dst, src) :: done, cur, rest2,
                  ((copyIn.OpenFile ctx src w).1.1,
                    (os.OpenFile dst dstFlag 0o644
                      (EnsureFilePath os dst (copyIn.OpenFile ctx src w).2).world).1.1) :: hs,
                  sf, df, cause, step, by simp [ht], by simp [hl], ?_, he⟩
                rw [hcs]
                simp [doneCalls, entryCalls]
          · rw [hv]
            refine ⟨by simp [Call.isClose, hmc, hc], by simp [opened, hmc, hc, opened_append],
              Or.inr ⟨[], (dst, src), rest, [], (copyIn.OpenFile ctx src w).1.1,
                (os.OpenFile dst dstFlag 0o644
                  (EnsureFilePath os dst (copyIn.OpenFile ctx src w).2).world).1.1,
                cause, .copyBytes, rfl, rfl, ?_, ?_⟩⟩ <;>
              simp [doneCalls, failedEntry, hmc, hc]
          · rw [hv]
            refine ⟨by simp [Call.isClose, hmc, hc], by simp [opened, hmc, hc, opened_append],
              Or.inr ⟨[], (dst, src), rest, [], (copyIn.OpenFile ctx src w).1.1,
                (os.OpenFile dst dstFlag 0o644
                  (EnsureFilePath os dst (copyIn.OpenFile ctx src w).2).world).1.1,
                cause, .syncDest, rfl, rfl, ?_, ?_⟩⟩ <;>
              simp [doneCalls, failedEntry, hmc, hc]

theorem runDeferred_calls (os : OS σ) (d : List File) (w : σ) :
    (runDeferred os d w).1 = d.map Call.Close := by
  induction d generalizing w with
  | nil => rfl
  | cons f rest ih => simp [runDeferred, ih]

theorem doneCalls_mem (dir : String → String) :
    ∀ (tbl : List (String × String)) (hs : List (File × File)) (c : Call),
      c ∈ doneCalls dir tbl hs →
        c.err = none ∧ c.isClose = false ∧ c.isRun = false ∧ c.isCollect = false := by
  intro tbl
  induction tbl with
  | nil => intro hs c h; simp [doneCalls] at h
  | cons e rest ih =>
    intro hs c h
    cases hs with
    | nil => simp [doneCalls] at h
    | cons p hs =>
      simp only [doneCalls, entryCalls, List.mem_append, List.mem_cons, List.mem_singleton,
        List.not_mem_nil, or_false] at h
      rcases h with (h | h | h | h | h) | h
      · rw [h]; exact ⟨rfl, rfl, rfl, rfl⟩
      · rw [h]; exact ⟨rfl, rfl, rfl, rfl⟩
      · rw [h]; exact ⟨rfl, rfl, rfl, rfl⟩
      · rw [h]; exact ⟨rfl, rfl, rfl, rfl⟩
      · rw [h]; exact ⟨rfl, rfl, rfl, rfl⟩
      · exact ih hs c h

theorem failedEntry_mem (dir : String → String) (e : String × String) (sf df : File)
    (cause : GoError) (step : SubStep) :
    ∀ c ∈ (failedEntry dir e sf df cause step).1,
      c.isClose = false ∧ c.isRun = false ∧ c.isCollect = false := by
  cases step <;> simp [failedEntry, Call.isClose, Call.isRun, Call.isCollect]

theorem failedEntry_err (dir : String → String) (e : String × String) (sf df : File)
    (cause : GoError) (step : SubStep) :
    ∃ c ∈ (failedEntry dir e sf df cause step).1, c.err = some cause := by
  cases step <;> simp [failedEntry, Call.err]

theorem failedEntry_is_FileError (dir : String → String) (e : String × String)
    (sf df : File) (cause : GoError) (step : SubStep) :
    ∃ op path, (failedEntry dir e sf df cause step).2 = .FileError op path cause := by
  cases step <;> simp [failedEntry]

/-- The log of `PrepareFiles`: what the loop did, then the closes deferred on
the way, last deferred first. -/
theorem PrepareFiles_calls (os : OS σ) (ctx : Ctx) (cmd : Cmd) (copyIn : CopyInReader σ Ctx)
    (w : σ) :
    (PrepareFiles os ctx cmd copyIn w).calls =
      (PrepareFiles.loop os ctx copyIn cmd.CopyIn [] w).calls ++
        (opened (PrepareFiles.loop os ctx copyIn cmd.CopyIn [] w).calls).reverse.map
          Call.Close := by
  have h := (loop_spec os ctx copyIn cmd.CopyIn [] w).2.1
  simp only [PrepareFiles, runDeferred_calls]
  rw [h]
  simp

/-- No call of `PrepareFiles` is a call to the backend or to the collector. -/
theorem PrepareFiles_calls_staging (os : OS σ) (ctx : Ctx) (cmd : Cmd)
    (copyIn : CopyInReader σ Ctx) (w : σ) :
    ∀ c ∈ (PrepareFiles os ctx cmd copyIn w).calls, c.isRun = false ∧ c.isCollect = false := by
  intro c hc
  rw [PrepareFiles_calls] at hc
  rcases List.mem_append.mp hc with hc | hc
  · rcases (loop_spec os ctx copyIn cmd.CopyIn [] w).2.2 with ⟨_, hs, _, hcs⟩ |
      ⟨done, cur, rest, hs, sf, df, cause, step, _, _, hcs, _⟩
    · rw [hcs] at hc
      exact (doneCalls_mem _ _ _ c hc).2.2
    · rw [hcs] at hc
      rcases List.mem_append.mp hc with hc | hc
      · exact (doneCalls_mem _ _ _ c hc).2.2
      · exact (failedEntry_mem _ _ _ _ _ _ c hc).2
  · obtain ⟨f, _, rfl⟩ := List.mem_map.mp hc
    exact ⟨rfl, rfl⟩

/-- An error of `PrepareFiles` is a `FileError`. -/
theorem PrepareFiles_err_is_FileError (os : OS σ) (ctx : Ctx) (cmd : Cmd)
    (copyIn : CopyInReader σ Ctx) (w : σ) (e : GoError)
    (h : (PrepareFiles os ctx cmd copyIn w).val = some e) :
    ∃ op path cause, e = .FileError op path cause := by
  have hv : (PrepareFiles os ctx cmd copyIn w).val =
      (PrepareFiles.loop os ctx copyIn cmd.CopyIn [] w).err := rfl
  rw [hv] at h
  rcases (loop_spec os ctx copyIn cmd.CopyIn [] w).2.2 with ⟨he, _⟩ |
    ⟨done, cur, rest, hs, sf, df, cause, step, _, _, _, he⟩
  · rw [he] at h; cases h
  · rw [he] at h
    obtain ⟨op, path, hf⟩ := failedEntry_is_FileError os.Dir cur sf df cause step
    rw [hf] at h
    exact ⟨op, path, cause, (Option.some.inj h).symm⟩

theorem replay_append (os : OS σ) (ctx : Ctx) (env : Environment σ Ctx)
    (copyIn : CopyInReader σ Ctx) (copyOut : FileCollector σ Ctx) (l₁ l₂ : List Call) (w : σ) :
    replay os ctx env copyIn copyOut (l₁ ++ l₂) w =
      (replay os ctx env copyIn copyOut l₁ w).bind (replay os ctx env copyIn copyOut l₂) := by
  induction l₁ generalizing w with
  | nil => rfl
  | cons c l ih =>
    simp only [List.cons_append, replay]
    cases c.replay os ctx env copyIn copyOut w with
    | none => rfl
    | some w1 => exact ih w1

theorem replay_closes (os : OS σ) (ctx : Ctx) (env : Environment σ Ctx)
    (copyIn : CopyInReader σ Ctx) (copyOut : FileCollector σ Ctx) (fs : List File) (w : σ) :
    replay os ctx env copyIn copyOut (fs.map Call.Close) w = some (closeAll os fs w) := by
  induction fs generalizing w with
  | nil => rfl
  | cons f rest ih => simp only [List.map_cons, replay, Call.replay, closeAll, List.foldl]; exact ih _

theorem runDeferred_world (os : OS σ) (d : List File) (w : σ) :
    (runDeferred os d w).2 = closeAll os d w := by
  induction d generalizing w with
  | nil => rfl
  | cons f rest ih => simp only [runDeferred, closeAll, List.foldl]; exact ih _

theorem EnsureFilePath_replay (os : OS σ) (ctx : Ctx) (env : Environment σ Ctx)
    (copyIn : CopyInReader σ Ctx) (copyOut : FileCollector σ Ctx) (path : String) (w : σ) :
    replay os ctx env copyIn copyOut (EnsureFilePath os path w).calls w =
      some (EnsureFilePath os path w).world := by
  simp [EnsureFilePath, replay, Call.replay]

theorem CopyFile_replay (os : OS σ) (ctx : Ctx) (env : Environment σ Ctx)
    (copyIn : CopyInReader σ Ctx) (copyOut : FileCollector σ Ctx) (dst src : File) (w : σ) :
    replay os ctx env copyIn copyOut (CopyFile os dst src w).calls w =
      some (CopyFile os dst src w).world := by
  cases h : (os.Copy dst src w).1 with
  | some c => simp [CopyFile, h, replay, Call.replay]
  | none => simp [CopyFile, h, replay, Call.replay]

/-- The log of the loop is truthful: made for real from the initial world, the
logged calls return the logged results and leave the world the loop leaves. -/
theorem loop_replay (os : OS σ) (ctx : Ctx) (env : Environment σ Ctx)
    (copyIn : CopyInReader σ Ctx) (copyOut : FileCollector σ Ctx) :
    ∀ (tbl : List (String × String)) (d : List File) (w : σ),
      replay os ctx env copyIn copyOut (PrepareFiles.loop os ctx copyIn tbl d w).calls w =
        some (PrepareFiles.loop os ctx copyIn tbl d w).world := by
  intro tbl
  induction tbl with
  | nil => intro d w; rfl
  | cons e rest ih =>
    intro d w
    obtain ⟨dst, src⟩ := e
    simp only [PrepareFiles.loop, EnsureFilePath]
    split
    · rename_i err herr
      simp [replay, Call.replay, herr]
    · rename_i hopen
      split
      · rename_i err herr
        simp [replay, Call.replay, hopen, herr]
      · rename_i hmk
        split
        · rename_i err herr
          simp [replay, Call.replay, hopen, hmk, herr]
        · rename_i hcr
          split
          · rename_i err herr
            simp [replay, Call.replay, hopen, hmk, hcr, CopyFile_replay]
          · rename_i hcp
            simp [replay, Call.replay, hopen, hmk, hcr, replay_append, CopyFile_replay, ih]

/-- The log of `PrepareFiles` is truthful, and the world it returns is the one
left by the last logged call. -/
theorem PrepareFiles_replay (os : OS σ) (ctx : Ctx) (env : Environment σ Ctx) (cmd : Cmd)
    (copyIn : CopyInReader σ Ctx) (copyOut : FileCollector σ Ctx) (w : σ) :
    replay os ctx env copyIn copyOut (PrepareFiles os ctx cmd copyIn w).calls w =
      some (PrepareFiles os ctx cmd copyIn w).world := by
  simp only [PrepareFiles, runDeferred_calls, replay_append, loop_replay, Option.bind,
    replay_closes, runDeferred_world]

/-- C6: the log of `PrepareFiles` is the calls of the loop followed only by
`Close` calls. Either no error is returned and the loop performed, entry after
entry in the order of the table, the sub-steps open source, make parent
directory, create/truncate destination, copy and sync, all successful; or the
table splits at a first failing entry: every sub-step of the entries before it
succeeded, the entry stops at its first failing sub-step, the error is the
`FileError` with that sub-step's kind (`open`, `mkdir`, `create`, `copy`), the
offending path (source for `open`, destination otherwise) and the cause the
failing call returned, and nothing but closes follows (no sub-step of a later
entry, no rollback). No error is returned exactly when no logged call failed.
The log is truthful: each logged call is made for real on the reader or the
operating system, in the world left by the calls before it, and returns the
logged file and error; and the world `PrepareFiles` returns is the world left
by the last logged call, so what the copies wrote is touched by nothing but
the closes. -/
theorem PrepareFiles_first_failure (os : OS σ) (ctx : Ctx) (env : Environment σ Ctx)
    (cmd : Cmd) (copyIn : CopyInReader σ Ctx) (copyOut : FileCollector σ Ctx) (w : σ) :
    (∃ ops closes, (PrepareFiles os ctx cmd copyIn w).calls = ops ++ closes ∧
      (∀ c ∈ closes, c.isClose = true) ∧
      (((PrepareFiles os ctx cmd copyIn w).val = none ∧
          ∃ hs : List (File × File), hs.length = cmd.CopyIn.length ∧
            ops = doneCalls os.Dir cmd.CopyIn hs) ∨
        (∃ done cur rest, ∃ hs : List (File × File), ∃ sf df cause step,
          cmd.CopyIn = done ++ cur :: rest ∧ hs.length = done.length ∧
          ops = doneCalls os.Dir done hs ++ (failedEntry os.Dir cur sf df cause step).1 ∧
          (PrepareFiles os ctx cmd copyIn w).val =
            some (failedEntry os.Dir cur sf df cause step).2))) ∧
    ((PrepareFiles os ctx cmd copyIn w).val = none ↔
      ∀ c ∈ (PrepareFiles os ctx cmd copyIn w).calls, c.err = none) ∧
    replay os ctx env copyIn copyOut (PrepareFiles os ctx cmd copyIn w).calls w =
      some (PrepareFiles os ctx cmd copyIn w).world := by
  have hcalls := PrepareFiles_calls os ctx cmd copyIn w
  have hv : (PrepareFiles os ctx cmd copyIn w).val =
      (PrepareFiles.loop os ctx copyIn cmd.CopyIn [] w).err := rfl
  have hspec := (loop_spec os ctx copyIn cmd.CopyIn [] w).2.2
  have hclose : ∀ c ∈ (opened (PrepareFiles.loop os ctx copyIn cmd.CopyIn [] w).calls).reverse.map
      Call.Close, c.isClose = true ∧ c.err = none := by
    intro c hc
    obtain ⟨f, _, rfl⟩ := List.mem_map.mp hc
    exact ⟨rfl, rfl⟩
  refine ⟨⟨_, _, hcalls, fun c hc => (hclose c hc).1, ?_⟩, ?_,
    PrepareFiles_replay os ctx env cmd copyIn copyOut w⟩
  · rw [hv]; exact hspec
  · rw [hv, hcalls]
    rcases hspec with ⟨he, hs, _, hcs⟩ | ⟨done, cur, rest, hs, sf, df, cause, step, _, _, hcs, he⟩
    · refine ⟨fun _ c hc => ?_, fun _ => he⟩
      rcases List.mem_append.mp hc with hc | hc
      · rw [hcs] at hc
        exact (doneCalls_mem _ _ _ c hc).1
      · exact (hclose c hc).2
    · refine ⟨fun h => ?_, fun h => ?_⟩
      · rw [he] at h; cases h
      · exfalso
        obtain ⟨c, hc, hce⟩ := failedEntry_err os.Dir cur sf df cause step
        have := h c (List.mem_append.mpr (Or.inl (by rw [hcs]; exact List.mem_append.mpr (Or.inr hc))))
        rw [hce] at this
        cases this

theorem PrepareFiles_first_failure_witness :
    (PrepareFiles memOS () secondMissing localReader twoSources).val =
        some (.FileError "open" "missing" (.external "file does not exist")) ∧
      (PrepareFiles memOS () secondMissing localReader twoSources).world.files "x" =
        some [1, 2] ∧
      (PrepareFiles memOS () secondMissing localReader twoSources).world.files "y" = none ∧
      replay memOS () (mockEnv none none) localReader (mockCollector [] none)
          (PrepareFiles memOS () secondMissing localReader twoSources).calls twoSources =
        some (PrepareFiles memOS () secondMissing localReader twoSources).world :=
  ⟨by decide, by decide, by decide,
    (PrepareFiles_first_failure memOS () (mockEnv none none) secondMissing localReader
      (mockCollector [] none) twoSources).2.2⟩

/-- C7, as stated, fails: staging two entries that both succeed, the source of
the second entry is opened while both files of the first are still open; the
four closes come last, in reverse order of opening. -/
theorem PrepareFiles_handles_held_across_entries :
    (PrepareFiles memOS () twoEntries localReader twoSources).val = none ∧
      (PrepareFiles memOS () twoEntries localReader twoSources).calls =
        [ .OpenFile "a" (some 0) none, .MkdirAll "." 0o755 none,
          .OsOpenFile "x" dstFlag 0o644 (some 1) none,
          .Copy (some 1) (some 0) none, .Sync (some 1) none,
          .OpenFile "b" (some 2) none, .MkdirAll "." 0o755 none,
          .OsOpenFile "y" dstFlag 0o644 (some 3) none,
          .Copy (some 3) (some 2) none, .Sync (some 3) none,
          .Close (some 3), .Close (some 2), .Close (some 1), .Close (some 0) ] ∧
      releasedPerEntry 0 (PrepareFiles memOS () twoEntries localReader twoSources).calls =
        false := by
  decide

/-- C7, amended: on every exit path what `PrepareFiles` does ends with one
`Close` for every file it opened (sources and destinations), and these closes
are the only ones: the log is the truthful log of the loop, free of closes,
followed by the closes of the opened files in reverse order of opening, and the
world returned is the world the loop leaves after `Close` has been applied to
each of these files in that order. -/
theorem PrepareFiles_closes_at_return (os : OS σ) (ctx : Ctx) (env : Environment σ Ctx)
    (cmd : Cmd) (copyIn : CopyInReader σ Ctx) (copyOut : FileCollector σ Ctx) (w : σ) :
    ∃ ops wl, (PrepareFiles os ctx cmd copyIn w).calls =
        ops ++ (opened ops).reverse.map Call.Close ∧
      (∀ c ∈ ops, c.isClose = false) ∧
      replay os ctx env copyIn copyOut ops w = some wl ∧
      (PrepareFiles os ctx cmd copyIn w).world = closeAll os (opened ops).reverse wl := by
  refine ⟨_, _, PrepareFiles_calls os ctx cmd copyIn w,
    (loop_spec os ctx copyIn cmd.CopyIn [] w).1,
    loop_replay os ctx env copyIn copyOut cmd.CopyIn [] w, ?_⟩
  have h := (loop_spec os ctx copyIn cmd.CopyIn [] w).2.1
  simp only [PrepareFiles, runDeferred_world]
  rw [h]
  simp

theorem PrepareFiles_closes_at_return_witness :
    (∃ ops wl, (PrepareFiles memOS () twoEntries localReader twoSources).calls =
        ops ++ (opened ops).reverse.map Call.Close ∧
      (∀ c ∈ ops, c.isClose = false) ∧
      replay memOS () (mockEnv none none) localReader (mockCollector [] none) ops twoSources =
        some wl ∧
      (PrepareFiles memOS () twoEntries localReader twoSources).world =
        closeAll memOS (opened ops).reverse wl) ∧
      (PrepareFiles memOS () twoEntries localReader twoSources).world.objs 0 =
        some ⟨"a", 2, false, true⟩ ∧
      (PrepareFiles memOS () twoEntries localReader twoSources).world.objs 1 =
        some ⟨"x", 2, true, true⟩ ∧
      (PrepareFiles memOS () twoEntries localReader twoSources).world.objs 2 =
        some ⟨"b", 1, false, true⟩ ∧
      (PrepareFiles memOS () twoEntries localReader twoSources).world.objs 3 =
        some ⟨"y", 1, true, true⟩ :=
  ⟨PrepareFiles_closes_at_return memOS () (mockEnv none none) twoEntries localReader
      (mockCollector [] none) twoSources,
    by decide, by decide, by decide, by decide⟩

end Staging

/-! ## Orchestration -/

section Orchestration

variable {σ Ctx : Type}

theorem ValidateCmd_err (cmd : Cmd) (e : GoError) (h : ValidateCmd cmd = some e) :
    ∃ msg, e = .CmdError "validate" (.errorf msg) := by
  unfold ValidateCmd at h
  split_ifs at h <;> exact ⟨_, (Option.some.inj h).symm⟩

/-- What `RunCmd` returns when a phase fails, phase by phase. -/
theorem RunCmd_val_of_failure (os : OS σ) (ctx : Ctx) (env : Environment σ Ctx) (cmd : Cmd)
    (copyIn : CopyInReader σ Ctx) (copyOut : FileCollector σ Ctx) (w : σ) :
    (∀ ve, ValidateCmd cmd = some ve →
        (RunCmd os ctx env cmd copyIn copyOut w).val = (none, some ve)) ∧
      (ValidateCmd cmd = none → ∀ pe, (PrepareFiles os ctx cmd copyIn w).val = some pe →
        (RunCmd os ctx env cmd copyIn copyOut w).val = (none, some (.CmdError "prepare" pe))) ∧
      (ValidateCmd cmd = none → (PrepareFiles os ctx cmd copyIn w).val = none →
        ∀ re, (env.Run ctx cmd (PrepareFiles os ctx cmd copyIn w).world).1.2 = some re →
        (RunCmd os ctx env cmd copyIn copyOut w).val = (none, some (.CmdError "run" re))) ∧
      (ValidateCmd cmd = none → (PrepareFiles os ctx cmd copyIn w).val = none →
        (env.Run ctx cmd (PrepareFiles os ctx cmd copyIn w).world).1.2 = none →
        cmd.CopyOut ≠ [] →
        ∀ ce, (copyOut.CollectFiles ctx cmd.CopyOut
            (env.Run ctx cmd (PrepareFiles os ctx cmd copyIn w).world).2).1.2 = some ce →
        (RunCmd os ctx env cmd copyIn copyOut w).val =
          (none, some (.CmdError "collect" ce))) ∧
      (ValidateCmd cmd = none → (PrepareFiles os ctx cmd copyIn w).val = none →
        (env.Run ctx cmd (PrepareFiles os ctx cmd copyIn w).world).1.2 = none →
        (cmd.CopyOut = [] ∨ (copyOut.CollectFiles ctx cmd.CopyOut
            (env.Run ctx cmd (PrepareFiles os ctx cmd copyIn w).world).2).1.2 = none) →
        (RunCmd os ctx env cmd copyIn copyOut w).val =
          ((env.Run ctx cmd (PrepareFiles os ctx cmd copyIn w).world).1.1, none)) := by
  refine ⟨fun ve hv => ?_, fun hv pe hp => ?_, fun hv hp re hr => ?_,
    fun hv hp hr hne ce hc => ?_, fun hv hp hr h => ?_⟩
  · simp [RunCmd, hv]
  · simp [RunCmd, hv, hp]
  · simp [RunCmd, hv, hp, hr]
  · have hlen : cmd.CopyOut.length > 0 := List.length_pos.mpr hne
    simp [RunCmd, hv, hp, hr, hlen, CollectFiles, hne, hc]
  · rcases h with hnil | hc
    · simp [RunCmd, hv, hp, hr, hnil]
    · by_cases hne : cmd.CopyOut = []
      · simp [RunCmd, hv, hp, hr, hne]
      · have hlen : cmd.CopyOut.length > 0 := List.length_pos.mpr hne
        simp [RunCmd, hv, hp, hr, hlen, CollectFiles, hne, hc]

/-- C2: `RunCmd` returns an error exactly when a phase fails, and then no
`Status`. When the validator rejects the descriptor the result is the
validator's `CmdError` tagged `validate` around its cause; else when staging
fails it is the stager's `FileError` tagged `prepare`; else when the backend's
`Run` returns an error it is that very error tagged `run`; else when the
collector's `CollectFiles` (called because `CopyOut` is not empty) returns an
error it is that very error tagged `collect`. Conversely every error `RunCmd`
returns is one of these four, the tag being that of the first phase that
failed and the cause unchanged. -/
theorem RunCmd_error_tagged (os : OS σ) (ctx : Ctx) (env : Environment σ Ctx) (cmd : Cmd)
    (copyIn : CopyInReader σ Ctx) (copyOut : FileCollector σ Ctx) (w : σ) :
    (∀ ve, ValidateCmd cmd = some ve →
        (∃ msg, ve = .CmdError "validate" (.errorf msg)) ∧
        (RunCmd os ctx env cmd copyIn copyOut w).val = (none, some ve)) ∧
      (ValidateCmd cmd = none → ∀ pe, (PrepareFiles os ctx cmd copyIn w).val = some pe →
        (∃ op path cause, pe = .FileError op path cause) ∧
        (RunCmd os ctx env cmd copyIn copyOut w).val = (none, some (.CmdError "prepare" pe))) ∧
      (ValidateCmd cmd = none → (PrepareFiles os ctx cmd copyIn w).val = none →
        ∀ re, (env.Run ctx cmd (PrepareFiles os ctx cmd copyIn w).world).1.2 = some re →
        (RunCmd os ctx env cmd copyIn copyOut w).val = (none, some (.CmdError "run" re))) ∧
      (ValidateCmd cmd = none → (PrepareFiles os ctx cmd copyIn w).val = none →
        (env.Run ctx cmd (PrepareFiles os ctx cmd copyIn w).world).1.2 = none →
        cmd.CopyOut ≠ [] →
        ∀ ce, (copyOut.CollectFiles ctx cmd.CopyOut
            (env.Run ctx cmd (PrepareFiles os ctx cmd copyIn w).world).2).1.2 = some ce →
        (RunCmd os ctx env cmd copyIn copyOut w).val =
          (none, some (.CmdError "collect" ce))) ∧
      (∀ e, (RunCmd os ctx env cmd copyIn copyOut w).val.2 = some e →
        (RunCmd os ctx env cmd copyIn copyOut w).val.1 = none ∧
        ((∃ msg, ValidateCmd cmd = some (.CmdError "validate" (.errorf msg)) ∧
            e = .CmdError "validate" (.errorf msg)) ∨
          (ValidateCmd cmd = none ∧ ∃ op path cause,
            (PrepareFiles os ctx cmd copyIn w).val = some (.FileError op path cause) ∧
            e = .CmdError "prepare" (.FileError op path cause)) ∨
          (ValidateCmd cmd = none ∧ (PrepareFiles os ctx cmd copyIn w).val = none ∧
            ∃ cause,
              (env.Run ctx cmd (PrepareFiles os ctx cmd copyIn w).world).1.2 = some cause ∧
              e = .CmdError "run" cause) ∨
          (ValidateCmd cmd = none ∧ (PrepareFiles os ctx cmd copyIn w).val = none ∧
            (env.Run ctx cmd (PrepareFiles os ctx cmd copyIn w).world).1.2 = none ∧
            cmd.CopyOut ≠ [] ∧
            ∃ cause, (copyOut.CollectFiles ctx cmd.CopyOut
                (env.Run ctx cmd (PrepareFiles os ctx cmd copyIn w).world).2).1.2 =
                  some cause ∧
              e = .CmdError "collect" cause))) := by
  obtain ⟨f1, f2, f3, f4, f5⟩ := RunCmd_val_of_failure os ctx env cmd copyIn copyOut w
  refine ⟨fun ve hv => ⟨ValidateCmd_err cmd ve hv, f1 ve hv⟩,
    fun hv pe hp => ⟨PrepareFiles_err_is_FileError os ctx cmd copyIn w pe hp, f2 hv pe hp⟩,
    f3, f4, fun e h => ?_⟩
  rcases Option.eq_none_or_eq_some (ValidateCmd cmd) with hv | ⟨ve, hv⟩
  swap
  · obtain ⟨msg, rfl⟩ := ValidateCmd_err cmd ve hv
    rw [f1 _ hv] at h ⊢
    exact ⟨rfl, Or.inl ⟨msg, hv, (Option.some.inj h).symm⟩⟩
  rcases Option.eq_none_or_eq_some (PrepareFiles os ctx cmd copyIn w).val with hp | ⟨pe, hp⟩
  swap
  · obtain ⟨op, path, cause, rfl⟩ := PrepareFiles_err_is_FileError os ctx cmd copyIn w pe hp
    rw [f2 hv _ hp] at h ⊢
    exact ⟨rfl, Or.inr (Or.inl ⟨hv, op, path, cause, hp, (Option.some.inj h).symm⟩)⟩
  rcases Option.eq_none_or_eq_some
    (env.Run ctx cmd (PrepareFiles os ctx cmd copyIn w).world).1.2 with hr | ⟨re, hr⟩
  swap
  · rw [f3 hv hp _ hr] at h ⊢
    exact ⟨rfl, Or.inr (Or.inr (Or.inl ⟨hv, hp, re, hr, (Option.some.inj h).symm⟩))⟩
  by_cases hne : cmd.CopyOut = []
  · rw [f5 hv hp hr (Or.inl hne)] at h
    cases h
  rcases Option.eq_none_or_eq_some (copyOut.CollectFiles ctx cmd.CopyOut
    (env.Run ctx cmd (PrepareFiles os ctx cmd copyIn w).world).2).1.2 with hc | ⟨ce, hc⟩
  · rw [f5 hv hp hr (Or.inr hc)] at h
    cases h
  · rw [f4 hv hp hr hne _ hc] at h ⊢
    exact ⟨rfl, Or.inr (Or.inr (Or.inr ⟨hv, hp, hr, hne, ce, hc, (Option.some.inj h).symm⟩))⟩

theorem RunCmd_error_tagged_witness :
    (RunCmd memOS () (mockEnv none (some DeadlineExceeded)) sleepCmd mockReader
        (mockCollector [] none) testFS).val =
      (none, some (.CmdError "run" DeadlineExceeded)) :=
  (RunCmd_error_tagged memOS () (mockEnv none (some DeadlineExceeded)) sleepCmd
    mockReader (mockCollector [] none) testFS).2.2.1 (by decide) (by decide)
    DeadlineExceeded rfl

theorem closeCollected_eq (os : OS σ) :
    ∀ (m : List (String × File)) (w : σ),
      (closeCollected os m w).1 = (nonNilFiles m).map Call.Close ∧
        (closeCollected os m w).2 = closeAll os (nonNilFiles m) w := by
  intro m
  induction m with
  | nil => intro w; exact ⟨rfl, rfl⟩
  | cons e rest ih =>
    intro w
    obtain ⟨q, f⟩ := e
    cases f with
    | none =>
      have hn : nonNilFiles ((q, none) :: rest) = nonNilFiles rest := by
        simp [nonNilFiles]
      rw [hn]
      exact ih w
    | some k =>
      have hn : nonNilFiles ((q, some k) :: rest) = some k :: nonNilFiles rest := by
        simp [nonNilFiles]
      rw [hn]
      simp only [closeCollected, List.map_cons, closeAll, List.foldl]
      exact ⟨by rw [(ih _).1], (ih _).2⟩

theorem mem_nonNilFiles (m : List (String × File)) (p : String) (n : Nat)
    (h : (p, some n) ∈ m) : some n ∈ nonNilFiles m := by
  simp only [nonNilFiles, List.mem_filter, List.mem_map]
  exact ⟨⟨(p, some n), h, rfl⟩, rfl⟩

/-- C4: with a non-empty `CopyOut`, validation and staging passing, `Run`
returning `s` without error and the collector returning the map `m` without
error, `RunCmd` returns exactly `s` and no error. Its calls are those of
staging, the one `Run`, one `CollectFiles` with the descriptor's `CopyOut`
list, and then one `Close` for each non-nil file of `m`, every file of `m`
being among them; no earlier call is a call to the collector; and the world
`RunCmd` returns is the world the collector left after `Close` has been
applied to each non-nil file of `m`. -/
theorem RunCmd_success_collect (os : OS σ) (ctx : Ctx) (env : Environment σ Ctx) (cmd : Cmd)
    (copyIn : CopyInReader σ Ctx) (copyOut : FileCollector σ Ctx) (w : σ)
    (s : Option Status) (m : List (String × File))
    (hne : cmd.CopyOut ≠ [])
    (hv : ValidateCmd cmd = none)
    (hp : (PrepareFiles os ctx cmd copyIn w).val = none)
    (hr : (env.Run ctx cmd (PrepareFiles os ctx cmd copyIn w).world).1 = (s, none))
    (hc : (copyOut.CollectFiles ctx cmd.CopyOut
      (env.Run ctx cmd (PrepareFiles os ctx cmd copyIn w).world).2).1 = (m, none)) :
    (RunCmd os ctx env cmd copyIn copyOut w).val = (s, none) ∧
      (RunCmd os ctx env cmd copyIn copyOut w).calls =
        ((PrepareFiles os ctx cmd copyIn w).calls ++ [Call.Run cmd s none]) ++
          Call.CollectFiles cmd.CopyOut m none :: (nonNilFiles m).map Call.Close ∧
      (∀ c ∈ (PrepareFiles os ctx cmd copyIn w).calls ++ [Call.Run cmd s none],
        c.isCollect = false) ∧
      (∀ p n, (p, some n) ∈ m → Call.Close (some n) ∈ (nonNilFiles m).map Call.Close) ∧
      (RunCmd os ctx env cmd copyIn copyOut w).world =
        closeAll os (nonNilFiles m)
          (copyOut.CollectFiles ctx cmd.CopyOut
            (env.Run ctx cmd (PrepareFiles os ctx cmd copyIn w).world).2).2 := by
  have hr1 : (env.Run ctx cmd (PrepareFiles os ctx cmd copyIn w).world).1.1 = s := by rw [hr]
  have hr2 : (env.Run ctx cmd (PrepareFiles os ctx cmd copyIn w).world).1.2 = none := by rw [hr]
  have hc1 : (copyOut.CollectFiles ctx cmd.CopyOut
      (env.Run ctx cmd (PrepareFiles os ctx cmd copyIn w).world).2).1.1 = m := by rw [hc]
  have hc2 : (copyOut.CollectFiles ctx cmd.CopyOut
      (env.Run ctx cmd (PrepareFiles os ctx cmd copyIn w).world).2).1.2 = none := by rw [hc]
  have hlen : cmd.CopyOut.length > 0 := List.length_pos.mpr hne
  refine ⟨by simp [RunCmd, hv, hp, hr1, hr2, hlen, CollectFiles, hne, hc2], ?_, ?_, ?_, ?_⟩
  · simp [RunCmd, hv, hp, hr1, hr2, hlen, CollectFiles, hne, hc1, hc2,
      (closeCollected_eq os _ _).1]
  · intro c hcm
    rcases List.mem_append.mp hcm with hcm | hcm
    · exact (PrepareFiles_calls_staging os ctx cmd copyIn w c hcm).2
    · rw [List.mem_singleton.mp hcm]; rfl
  · intro p n hmem
    exact List.mem_map_of_mem _ (mem_nonNilFiles m p n hmem)
  · simp [RunCmd, hv, hp, hr1, hr2, hlen, CollectFiles, hne, hc1, hc2,
      (closeCollected_eq os _ _).2]

theorem RunCmd_success_collect_witness :
    ((RunCmd memOS () (mockEnv (some okStatus) none) echoCmd localReader
        (mockCollector [("output.txt", some 0)] none) testFS).val = (some okStatus, none) ∧
      (RunCmd memOS () (mockEnv (some okStatus) none) echoCmd localReader
        (mockCollector [("output.txt", some 0)] none) testFS).calls =
        ((PrepareFiles memOS () echoCmd localReader testFS).calls ++
            [Call.Run echoCmd (some okStatus) none]) ++
          Call.CollectFiles echoCmd.CopyOut [("output.txt", some 0)] none ::
            (nonNilFiles [("output.txt", some 0)]).map Call.Close ∧
      (∀ c ∈ (PrepareFiles memOS () echoCmd localReader testFS).calls ++
          [Call.Run echoCmd (some okStatus) none], c.isCollect = false) ∧
      (∀ p n, (p, some n) ∈ [("output.txt", some 0)] →
        Call.Close (some n) ∈ (nonNilFiles [("output.txt", some 0)]).map Call.Close) ∧
      (RunCmd memOS () (mockEnv (some okStatus) none) echoCmd localReader
        (mockCollector [("output.txt", some 0)] none) testFS).world =
        closeAll memOS (nonNilFiles [("output.txt", some 0)])
          (PrepareFiles memOS () echoCmd localReader testFS).world) ∧
      (PrepareFiles memOS () echoCmd localReader testFS).world.objs 0 =
        some ⟨"/tmp/test", 0, false, false⟩ ∧
      (RunCmd memOS () (mockEnv (some okStatus) none) echoCmd localReader
        (mockCollector [("output.txt", some 0)] none) testFS).world.objs 0 =
        some ⟨"/tmp/test", 0, false, true⟩ :=
  ⟨RunCmd_success_collect memOS () (mockEnv (some okStatus) none) echoCmd localReader
      (mockCollector [("output.txt", some 0)] none) testFS (some okStatus)
      [("output.txt", some 0)] (by decide) (by decide) (by decide) rfl rfl,
    by decide, by decide⟩

end Orchestration

/-! ## Staging on the in-memory file system -/

section Idempotence

theorem MemFS.close_files (f : File) (w : MemFS) : (MemFS.close f w).files = w.files := by
  unfold MemFS.close
  split <;> rfl

theorem runDeferred_files (d : List File) (w : MemFS) :
    (runDeferred memOS d w).2.files = w.files := by
  induction d generalizing w with
  | nil => rfl
  | cons f rest ih =>
    simp only [runDeferred]
    rw [ih]
    exact MemFS.close_files f w

theorem memOS_loop_cons (dst src : String) (rest : List (String × String)) (d : List File)
    (w : MemFS) (content : List Nat) (hsrc : w.files src = some content) (hne : src ≠ dst) :
    ∃ d' w', w'.files = Function.update w.files dst (some content) ∧
      (PrepareFiles.loop memOS () localReader ((dst, src) :: rest) d w).err =
        (PrepareFiles.loop memOS () localReader rest d' w').err ∧
      (PrepareFiles.loop memOS () localReader ((dst, src) :: rest) d w).world =
        (PrepareFiles.loop memOS () localReader rest d' w').world := by
  refine ⟨some (w.next + 1) :: some w.next :: d,
    { files := Function.update w.files dst (some content),
      objs := Function.update (Function.update (Function.update (Function.update w.objs w.next
          (some ⟨src, 0, false, false⟩)) (w.next + 1) (some ⟨dst, 0, true, false⟩)) w.next
          (some ⟨src, content.length, false, false⟩)) (w.next + 1)
          (some ⟨dst, content.length, true, false⟩),
      next := w.next + 2 }, rfl, ?_, ?_⟩
  · cases hdst : w.files dst <;>
    simp [PrepareFiles.loop, localReader, MemFS.open, hsrc, EnsureFilePath, memOS,
      MemFS.openFile, dstFlag, CopyFile, MemFS.copy, MemFS.obj, MemFS.sync, hdst, hne]
  · cases hdst : w.files dst <;>
    simp [PrepareFiles.loop, localReader, MemFS.open, hsrc, EnsureFilePath, memOS,
      MemFS.openFile, dstFlag, CopyFile, MemFS.copy, MemFS.obj, MemFS.sync, hdst, hne]

/-- A successful loop over a table none of whose entries copies a file onto
itself performs the assignments `dst := src` in the order of the table. -/
theorem memOS_loop_files :
    ∀ (tbl : List (String × String)) (d : List File) (w : MemFS),
      (∀ e ∈ tbl, e.2 ≠ e.1) →
      (PrepareFiles.loop memOS () localReader tbl d w).err = none →
      (PrepareFiles.loop memOS () localReader tbl d w).world.files =
        tbl.foldl assign w.files := by
  intro tbl
  induction tbl with
  | nil => intro d w _ _; rfl
  | cons e rest ih =>
    intro d w hne h
    obtain ⟨dst, src⟩ := e
    have hsd : src ≠ dst := hne (dst, src) (List.mem_cons_self _ _)
    cases hsrc : w.files src with
    | none =>
      have : (PrepareFiles.loop memOS () localReader ((dst, src) :: rest) d w).err ≠ none := by
        simp [PrepareFiles.loop, localReader, MemFS.open, hsrc]
      exact absurd h this
    | some content =>
      obtain ⟨d', w', hf, he, hw⟩ := memOS_loop_cons dst src rest d w content hsrc hsd
      rw [hw, ih d' w' (fun e he' => hne e (List.mem_cons_of_mem _ he')) (he ▸ h), hf]
      simp [List.foldl, assign, hsrc]

theorem memOS_PrepareFiles_files (cmd : Cmd) (w : MemFS)
    (hne : ∀ e ∈ cmd.CopyIn, e.2 ≠ e.1)
    (h : (PrepareFiles memOS () cmd localReader w).val = none) :
    (PrepareFiles memOS () cmd localReader w).world.files = cmd.CopyIn.foldl assign w.files := by
  have hw : (PrepareFiles memOS () cmd localReader w).world.files =
      (PrepareFiles.loop memOS () localReader cmd.CopyIn [] w).world.files :=
    runDeferred_files _ _
  rw [hw]
  exact memOS_loop_files cmd.CopyIn [] w hne h

theorem foldl_assign_other (tbl : List (String × String)) :
    ∀ (f : String → Option (List Nat)) (p : String),
      (∀ e ∈ tbl, e.1 ≠ p) → tbl.foldl assign f p = f p := by
  induction tbl with
  | nil => intro f p _; rfl
  | cons e rest ih =>
    intro f p h
    simp only [List.foldl]
    rw [ih _ p (fun e' he' => h e' (List.mem_cons_of_mem _ he'))]
    have : p ≠ e.1 := fun hp => h e (List.mem_cons_self _ _) hp.symm
    simp [assign, Function.update_noteq this]

theorem foldl_assign_dest (tbl : List (String × String)) :
    ∀ (f : String → Option (List Nat)),
      (tbl.map Prod.fst).Nodup → (∀ e ∈ tbl, ∀ e' ∈ tbl, e.2 ≠ e'.1) →
      ∀ e ∈ tbl, tbl.foldl assign f e.1 = f e.2 := by
  induction tbl with
  | nil => intro f _ _ e he; cases he
  | cons e0 rest ih =>
    intro f hnd hdisj e he
    simp only [List.foldl]
    rw [List.map_cons, List.nodup_cons] at hnd
    rcases List.mem_cons.mp he with rfl | he'
    · rw [foldl_assign_other rest _ e.1 (fun e' he' h' =>
        hnd.1 (h' ▸ List.mem_map_of_mem Prod.fst he'))]
      simp [assign]
    · rw [ih _ hnd.2 (fun a ha b hb =>
        hdisj a (List.mem_cons_of_mem _ ha) b (List.mem_cons_of_mem _ hb)) e he']
      have : e.2 ≠ e0.1 := hdisj e he e0 (List.mem_cons_self _ _)
      simp [assign, Function.update_noteq this]

/-- C10, as stated, fails: over the table `c ← b`, `b ← a` both runs of staging
succeed, yet `c` holds the old bytes of `b` after the first run and the bytes
of `a` after the second. -/
theorem stageTwice_chain_differs :
    (stageTwice chainTable chainTable chainFS).1.val = none ∧
      (stageTwice chainTable chainTable chainFS).2.val = none ∧
      (stageTwice chainTable chainTable chainFS).1.world.files "c" = some [2] ∧
      (stageTwice chainTable chainTable chainFS).2.world.files "c" = some [1] := by
  decide

/-- C10, amended: on a file system whose files are addressed by their path,
with the source reader opening the source paths on it, for every copy-in table
with distinct destinations none of whose sources is also one of its
destinations, two successive successful runs of staging (the second ranging
over the table in any order) leave every destination with the same content
after the second run as after the first: the bytes of its source, the previous
content of the destination being discarded. -/
theorem PrepareFiles_idempotent (tbl tbl2 : List (String × String)) (w : MemFS)
    (hperm : tbl2.Perm tbl)
    (hnodup : (tbl.map Prod.fst).Nodup)
    (hdisj : ∀ e ∈ tbl, ∀ e' ∈ tbl, e.2 ≠ e'.1)
    (h1 : (stageTwice tbl tbl2 w).1.val = none)
    (h2 : (stageTwice tbl tbl2 w).2.val = none) :
    ∀ e ∈ tbl,
      (stageTwice tbl tbl2 w).2.world.files e.1 = (stageTwice tbl tbl2 w).1.world.files e.1 ∧
        (stageTwice tbl tbl2 w).1.world.files e.1 = w.files e.2 := by
  intro e he
  have hnodup2 : (tbl2.map Prod.fst).Nodup := (hperm.map Prod.fst).nodup_iff.mpr hnodup
  have hdisj2 : ∀ e ∈ tbl2, ∀ e' ∈ tbl2, e.2 ≠ e'.1 := fun a ha b hb =>
    hdisj a (hperm.mem_iff.mp ha) b (hperm.mem_iff.mp hb)
  have hf1 := memOS_PrepareFiles_files { NewCmd [] with CopyIn := tbl } w
    (fun a ha => hdisj a ha a ha) h1
  have hf2 := memOS_PrepareFiles_files { NewCmd [] with CopyIn := tbl2 }
    (stageTwice tbl tbl2 w).1.world (fun a ha => hdisj2 a ha a ha) h2
  have e1 : (stageTwice tbl tbl2 w).1.world.files = tbl.foldl assign w.files := hf1
  have e2 : (stageTwice tbl tbl2 w).2.world.files =
      tbl2.foldl assign (stageTwice tbl tbl2 w).1.world.files := hf2
  have hd1 : (stageTwice tbl tbl2 w).1.world.files e.1 = w.files e.2 := by
    rw [e1]; exact foldl_assign_dest tbl _ hnodup hdisj e he
  refine ⟨?_, hd1⟩
  rw [e2, foldl_assign_dest tbl2 _ hnodup2 hdisj2 e (hperm.mem_iff.mpr he), hd1, e1]
  exact foldl_assign_other tbl _ e.2 (fun e' he' h' => hdisj e he e' he' h'.symm)

theorem PrepareFiles_idempotent_witness :
    (stageTwice [("x", "a"), ("y", "b")] [("y", "b"), ("x", "a")] twoSources).2.world.files
          "x" =
        (stageTwice [("x", "a"), ("y", "b")] [("y", "b"), ("x", "a")] twoSources).1.world.files
          "x" ∧
      (stageTwice [("x", "a"), ("y", "b")] [("y", "b"), ("x", "a")] twoSources).1.world.files
          "x" = twoSources.files "a" :=
  PrepareFiles_idempotent [("x", "a"), ("y", "b")] [("y", "b"), ("x", "a")] twoSources
    (List.Perm.swap _ _ _) (by decide) (by decide) (by decide) (by decide) ("x", "a")
    (by decide)

end Idempotence

end envexec
